import Mathlib

/-!
# Collections and books backend (`backend/main.go`, `backend/models.go`)

A shallow embedding of the five HTTP handlers of the backend and of the
relational store they talk to.

* `Book`, `Collection` are the structs of `models.go`.
* `Store` is the content of the two tables, each kept in primary-key order,
  which is the order in which SQLite scans a table.  The column
  `collection_id` is a signed 64-bit integer while the field is a `uint`: a
  field value of `2 ^ 63` or more is held as a negative number (`toInt64`),
  and a row holding a negative number cannot be read back into a `Book`
  (`scanBook`).
* `DB.*` are the ORM calls the handlers make (`Find`, `Preload`, `Where`,
  `Order`, `First`, `Create`, `Save`), as functions on a `Store`.  Each takes
  a `Faults` value saying whether the storage layer fails on this request, so
  that the `err != nil` branches of the handlers are real branches.
* `Atoi` is `strconv.Atoi` for the 64-bit `int`.
* `ReqBody` is the request body as seen by `ShouldBindJSON`.
* every handler is a function `Faults → Store → Context → Response × Store`.
-/

namespace Stack

/-! ## Machine integers -/

/-- Largest value of Go's `int` on a 64-bit target. -/
def maxInt : Int := 2 ^ 63 - 1

/-- Smallest value of Go's `int` on a 64-bit target. -/
def minInt : Int := -(2 ^ 63)

/-- Go's conversion `uint(n)` of an `int`: the value modulo `2 ^ 64`. -/
def toUint (n : Int) : Nat := (n % 2 ^ 64).toNat

/-- The signed 64-bit integer that a `uint` bound to a statement is sent as:
the same 64 bits read in two's complement, so values of `2 ^ 63` and more
become negative. -/
def toInt64 (u : Nat) : Int :=
  if u % 2 ^ 64 < 2 ^ 63 then ((u % 2 ^ 64 : Nat) : Int)
  else ((u % 2 ^ 64 : Nat) : Int) - 2 ^ 64

/-! ## `models.go` -/

/-- The `Book` struct of `models.go`; `ID` and `CollectionID` are `uint`,
`Position` is `int`. -/
structure Book where
  ID : Nat
  Name : String
  Position : Int
  Done : Bool
  CollectionID : Nat
  deriving DecidableEq, Repr

/-- The `Collection` struct of `models.go`.  `Books` is not a column: it is
filled by `Preload("Books")`. -/
structure Collection where
  ID : Nat
  Name : String
  Books : List Book
  deriving DecidableEq, Repr

/-! ## The store -/

/-- A row of the `collections` table: the columns `id` and `name`. -/
structure CollectionRow where
  ID : Nat
  Name : String
  deriving DecidableEq, Repr

/-- The two tables.  Rows are listed in primary-key order; a row of `books`
is given by the `Book` value that was written, its column `collection_id`
holding `toInt64 CollectionID`. -/
structure Store where
  collections : List CollectionRow
  books : List Book
  deriving DecidableEq, Repr

/-- What the storage layer does on this request: `query` says that reading
fails, `exec` that writing fails. -/
structure Faults where
  query : Bool
  exec : Bool
  deriving DecidableEq, Repr

/-- A storage layer that works. -/
def Faults.none : Faults := ⟨false, false⟩

/-- The primary-key constraint of the two tables: the keys are positive and
strictly ascending (`integer PRIMARY KEY AUTOINCREMENT`, rows in key order).
Every request keeps it (`serve_valid`). -/
def Store.Valid (s : Store) : Prop :=
  (s.collections.map (·.ID)).Pairwise (· < ·) ∧
  (∀ r ∈ s.collections, 0 < r.ID) ∧
  (s.books.map (·.ID)).Pairwise (· < ·) ∧
  (∀ b ∈ s.books, 0 < b.ID)

instance (s : Store) : Decidable s.Valid := by
  unfold Store.Valid; infer_instance

/-- The errors of the ORM that the handlers can see. -/
inductive DBError
  | recordNotFound
  | failure
  deriving DecidableEq, Repr

namespace DB

/-- The key SQLite gives to a new row: one more than the largest key of the
table (no row is ever deleted, so this is also the `AUTOINCREMENT` counter
plus one). -/
def nextID (ids : List Nat) : Nat := ids.foldl max 0 + 1

/-- `db.Preload("Books").Find(&collections)`: every row of `collections` in
table order, each with the rows of `books` whose `collection_id` is its id,
in table order. -/
def findCollections (f : Faults) (s : Store) : Except DBError (List Collection) :=
  if f.query then .error .failure
  else .ok (s.collections.map fun r =>
    { ID := r.ID, Name := r.Name,
      Books := s.books.filter fun b => b.CollectionID = r.ID })

/-- Reading a selected row of `books` into a `Book`: a negative
`collection_id` does not convert to `uint` and the read fails. -/
def scanBook (b : Book) : Except DBError Book :=
  if 0 ≤ toInt64 b.CollectionID then .ok b else .error .failure

/-- `db.Where("collection_id = ?", collectionId).Order("position").Find(&books)`:
the rows whose column `collection_id` equals the integer, in ascending order
of `position` (rows with equal positions keep their table order); the query
fails when one of these rows cannot be read. -/
def findBooks (f : Faults) (s : Store) (collectionId : Int) :
    Except DBError (List Book) :=
  if f.query then .error .failure
  else
    let rows := (s.books.filter fun b => toInt64 b.CollectionID = collectionId).insertionSort
      fun a b => a.Position ≤ b.Position
    if rows.all (fun b => 0 ≤ toInt64 b.CollectionID) then .ok rows else .error .failure

/-- `db.First(&task, bookId)`: the row of `books` whose primary key equals the
integer, read into a `Book`; `ErrRecordNotFound` when there is none. -/
def firstBook (f : Faults) (s : Store) (bookId : Int) : Except DBError Book :=
  if f.query then .error .failure
  else match s.books.find? fun b => (b.ID : Int) = bookId with
    | some b => scanBook b
    | none => .error .recordNotFound

/-- `db.Create(&collection)` for a value whose primary key is zero and that
has no books, as `createCollection` builds it: a row with a generated key is
added at the end of the table and the key is written back into the value. -/
def createCollection (f : Faults) (s : Store) (c : Collection) :
    Except DBError (Collection × Store) :=
  if f.exec then .error .failure
  else
    let id := nextID (s.collections.map (·.ID))
    .ok ({ c with ID := id },
         { s with collections := s.collections ++ [{ ID := id, Name := c.Name }] })

/-- `db.Create(&task)` for a book whose primary key is zero: a row with a
generated key is added at the end of the table and the key is written back
into the value.  No foreign-key check is made, and a `CollectionID` of
`2 ^ 63` or more is written without error, as the negative number
`toInt64 CollectionID`. -/
def createBook (f : Faults) (s : Store) (b : Book) : Except DBError (Book × Store) :=
  if f.exec then .error .failure
  else
    let id := nextID (s.books.map (·.ID))
    .ok ({ b with ID := id }, { s with books := s.books ++ [{ b with ID := id }] })

/-- Insertion of a row with an explicit key at its place in key order. -/
def insertByID (b : Book) : List Book → List Book
  | [] => [b]
  | r :: rs => if b.ID < r.ID then b :: r :: rs else r :: insertByID b rs

/-- `db.Save(&task)`: with a zero primary key it is `Create`; otherwise every
column of the row with that key is overwritten, and when no row has the key
the value is inserted under it. -/
def saveBook (f : Faults) (s : Store) (b : Book) : Except DBError (Book × Store) :=
  if b.ID = 0 then createBook f s b
  else if f.exec then .error .failure
  else if s.books.any (fun r => r.ID = b.ID) then
    .ok (b, { s with books := s.books.map fun r => if r.ID = b.ID then b else r })
  else .ok (b, { s with books := insertByID b s.books })

end DB

/-! ## `strconv.Atoi` -/

/-- The decimal value of a string of ASCII digits, continuing from `acc`;
`none` at the first character that is not a digit. -/
def parseDigits : List Char → Nat → Option Nat
  | [], acc => some acc
  | c :: cs, acc =>
    if 48 ≤ c.toNat ∧ c.toNat ≤ 57 then parseDigits cs (acc * 10 + (c.toNat - 48))
    else none

/-- `strconv.Atoi`: an optional sign followed by at least one decimal digit,
with a value in the range of `int`; `none` stands for the error result. -/
def Atoi (s : String) : Option Int :=
  match s.data with
  | [] => none
  | c :: cs =>
    let ds := if c = '-' ∨ c = '+' then cs else c :: cs
    if ds = [] then none
    else match parseDigits ds 0 with
      | none => none
      | some n =>
        let v : Int := if c = '-' then -(n : Int) else (n : Int)
        if minInt ≤ v ∧ v ≤ maxInt then some v else none

/-! ## Requests and responses -/

/-- A member of the JSON object in a request body, as far as decoding into a
`string` or an `int` field distinguishes values. -/
inductive JValue
  | null
  | str (s : String)
  | int (n : Int)
  | other
  deriving DecidableEq, Repr

/-- A request body: either not a JSON object at all, or an object with its
`name` and `position` members (`none` when the member is absent). -/
inductive ReqBody
  | invalid
  | object (name : Option JValue) (position : Option JValue)
  deriving DecidableEq, Repr

/-- Decoding of a member into a `string` field: an absent or `null` member
leaves the zero value, a JSON string sets it, anything else is an error. -/
def decodeString : Option JValue → Option String
  | Option.none => some ""
  | some .null => some ""
  | some (.str s) => some s
  | some _ => Option.none

/-- Decoding of a member into an `int` field: an absent or `null` member
leaves the zero value, an integer literal in the range of `int` sets it,
anything else is an error. -/
def decodeInt : Option JValue → Option Int
  | Option.none => some 0
  | some .null => some 0
  | some (.int n) => if minInt ≤ n ∧ n ≤ maxInt then some n else Option.none
  | some _ => Option.none

/-- The `input` struct of `createCollection`. -/
structure CollectionInput where
  Name : String
  deriving DecidableEq, Repr

/-- The `input` struct of `addBookToCollection`. -/
structure BookInput where
  Name : String
  Position : Int
  deriving DecidableEq, Repr

/-- `c.ShouldBindJSON(&input)` in `createCollection`: decode, then check
`binding:"required"`, which rejects the zero value `""`.  Members other than
`name` are ignored. -/
def bindCollectionInput : ReqBody → Option CollectionInput
  | .invalid => Option.none
  | .object name _ =>
    match decodeString name with
    | Option.none => Option.none
    | some n => if n = "" then Option.none else some { Name := n }

/-- `c.ShouldBindJSON(&input)` in `addBookToCollection`: decode, then check
`binding:"required"` on both fields, which rejects the zero values `""` and
`0`. -/
def bindBookInput : ReqBody → Option BookInput
  | .invalid => Option.none
  | .object name position =>
    match decodeString name, decodeInt position with
    | some n, some p =>
      if n = "" then Option.none
      else if p = 0 then Option.none
      else some { Name := n, Position := p }
    | _, _ => Option.none

/-- What a handler reads from `*gin.Context`: the two path parameters and the
body. -/
structure Context where
  collectionId : String
  bookId : String
  body : ReqBody
  deriving DecidableEq, Repr

/-- The JSON value a handler answers with. -/
inductive Payload
  | error (msg : String)
  | collections (cs : List Collection)
  | collection (c : Collection)
  | books (bs : List Book)
  | book (b : Book)
  deriving DecidableEq, Repr

/-- An answer: status code and body. -/
structure Response where
  status : Nat
  body : Payload
  deriving DecidableEq, Repr

def StatusOK : Nat := 200
def StatusBadRequest : Nat := 400
def StatusNotFound : Nat := 404
def StatusInternalServerError : Nat := 500

/-! ## The handlers of `main.go` -/

/-- Handler `getCollections`. -/
def getCollections (f : Faults) (s : Store) (_c : Context) : Response × Store :=
  match DB.findCollections f s with
  | .error _ => (⟨StatusInternalServerError, .error "failed to fetch collections"⟩, s)
  | .ok collections => (⟨StatusOK, .collections collections⟩, s)

/-- Handler `createCollection`. -/
def createCollection (f : Faults) (s : Store) (c : Context) : Response × Store :=
  match bindCollectionInput c.body with
  | Option.none => (⟨StatusBadRequest, .error "name is required"⟩, s)
  | some input =>
    match DB.createCollection f s { ID := 0, Name := input.Name, Books := [] } with
    | .error _ => (⟨StatusInternalServerError, .error "failed to create collection"⟩, s)
    | .ok (collection, s') => (⟨StatusOK, .collection collection⟩, s')

/-- Handler `getBooksInCollection`. -/
def getBooksInCollection (f : Faults) (s : Store) (c : Context) : Response × Store :=
  match Atoi c.collectionId with
  | Option.none => (⟨StatusBadRequest, .error "invalid collection id"⟩, s)
  | some collectionId =>
    match DB.findBooks f s collectionId with
    | .error _ => (⟨StatusInternalServerError, .error "failed to fetch books"⟩, s)
    | .ok books => (⟨StatusOK, .books books⟩, s)

/-- Handler `addBookToCollection`. -/
def addBookToCollection (f : Faults) (s : Store) (c : Context) : Response × Store :=
  match Atoi c.collectionId with
  | Option.none => (⟨StatusBadRequest, .error "invalid collection id"⟩, s)
  | some collectionId =>
    match bindBookInput c.body with
    | Option.none => (⟨StatusBadRequest, .error "name and position are required"⟩, s)
    | some input =>
      let task : Book :=
        { ID := 0, Name := input.Name, Position := input.Position, Done := false,
          CollectionID := toUint collectionId }
      match DB.createBook f s task with
      | .error _ => (⟨StatusInternalServerError, .error "failed to create book"⟩, s)
      | .ok (task, s') => (⟨StatusOK, .book task⟩, s')

/-- Handler `toggleBook`.  Any error of `First` is answered 404. -/
def toggleBook (f : Faults) (s : Store) (c : Context) : Response × Store :=
  match Atoi c.bookId with
  | Option.none => (⟨StatusBadRequest, .error "invalid book id"⟩, s)
  | some bookId =>
    match DB.firstBook f s bookId with
    | .error _ => (⟨StatusNotFound, .error "book not found"⟩, s)
    | .ok task =>
      let task := { task with Done := !task.Done }
      match DB.saveBook f s task with
      | .error _ => (⟨StatusInternalServerError, .error "failed to update"⟩, s)
      | .ok (task, s') => (⟨StatusOK, .book task⟩, s')

/-- The five routes registered in `main`. -/
inductive Route
  | getCollections
  | createCollection
  | getBooksInCollection
  | addBookToCollection
  | toggleBook
  deriving DecidableEq, Repr

/-- Dispatch of a request to the handler of its route. -/
def serve (f : Faults) (s : Store) : Route → Context → Response × Store
  | .getCollections => getCollections f s
  | .createCollection => createCollection f s
  | .getBooksInCollection => getBooksInCollection f s
  | .addBookToCollection => addBookToCollection f s
  | .toggleBook => toggleBook f s

/-! ## The order of `Order("position")` -/

instance : IsTotal Book (fun a b => a.Position ≤ b.Position) :=
  ⟨fun a b => le_total a.Position b.Position⟩

instance : IsTrans Book (fun a b => a.Position ≤ b.Position) :=
  ⟨fun _ _ _ h1 h2 => le_trans h1 h2⟩

/-! ## Sample stores and requests -/

/-- The store of a fresh database file. -/
def emptyStore : Store := ⟨[], []⟩

/-- A store with one collection and two books. -/
def sampleStore : Store :=
  ⟨[⟨1, "Sci-Fi"⟩], [⟨1, "Dune", 3, false, 1⟩, ⟨2, "Emma", 1, true, 1⟩]⟩

/-- A body with a name and a position. -/
def bookBody (name : String) (position : Int) : ReqBody :=
  .object (some (.str name)) (some (.int position))

/-- The store after `POST /collections/5/books` on a fresh database: one book
whose `collection_id` names no collection. -/
def orphanStore : Store :=
  (addBookToCollection Faults.none emptyStore ⟨"5", "", bookBody "Dune" 1⟩).2

/-- The store after a book is added to `sampleStore` under the path id `-1`:
a third book, whose `collection_id` is held as the negative number. -/
def mixedStore : Store :=
  (addBookToCollection Faults.none sampleStore ⟨"-1", "", bookBody "Ulysses" 2⟩).2

/-- The stores reached from a fresh database by requests to the five routes,
under any behaviour of the storage layer. -/
inductive Reachable : Store → Prop
  | init : Reachable emptyStore
  | step (f : Faults) (s : Store) (r : Route) (c : Context) :
      Reachable s → Reachable (serve f s r c).2

end Stack

namespace Stack
open DB

/-! ## Lemmas on the store primitives -/

theorem le_foldl_max (ids : List Nat) (acc : Nat) :
    acc ≤ ids.foldl max acc ∧ ∀ x ∈ ids, x ≤ ids.foldl max acc := by
  induction ids generalizing acc with
  | nil => simp
  | cons a as ih =>
    simp only [List.foldl_cons, List.mem_cons]
    obtain ⟨h1, h2⟩ := ih (max acc a)
    refine ⟨le_trans (le_max_left _ _) h1, ?_⟩
    rintro x (rfl | hx)
    · exact le_trans (le_max_right _ _) h1
    · exact h2 x hx

theorem lt_nextID {ids : List Nat} {x : Nat} (hx : x ∈ ids) : x < nextID ids :=
  Nat.lt_succ_of_le ((le_foldl_max ids 0).2 x hx)

theorem nextID_not_mem (ids : List Nat) : nextID ids ∉ ids :=
  fun h => lt_irrefl _ (lt_nextID h)

theorem nextID_pos (ids : List Nat) : 0 < nextID ids := Nat.succ_pos _

/-- In a valid store a book is determined by its primary key. -/
theorem Store.Valid.book_eq {s : Store} (hv : s.Valid) {a b : Book}
    (ha : a ∈ s.books) (hb : b ∈ s.books) (h : a.ID = b.ID) : a = b := by
  have hnd : (s.books.map (·.ID)).Nodup :=
    List.Pairwise.imp (fun hlt => Nat.ne_of_lt hlt) hv.2.2.1
  exact List.inj_on_of_nodup_map hnd ha hb h

theorem Store.Valid.book_pos {s : Store} (hv : s.Valid) {b : Book} (hb : b ∈ s.books) :
    b.ID ≠ 0 := Nat.pos_iff_ne_zero.mp (hv.2.2.2 b hb)

/-- Looking a stored book up by its key finds that book. -/
theorem find_book {s : Store} (hv : s.Valid) {b : Book} (hb : b ∈ s.books) :
    s.books.find? (fun r => decide ((r.ID : Int) = (b.ID : Int))) = some b := by
  cases h : s.books.find? (fun r => decide ((r.ID : Int) = (b.ID : Int))) with
  | none =>
    have := List.find?_eq_none.mp h b hb
    simp at this
  | some r =>
    have hr : r ∈ s.books := List.mem_of_find?_eq_some h
    have hp := List.find?_some h
    simp only [decide_eq_true_eq] at hp
    have : r.ID = b.ID := by exact_mod_cast hp
    rw [hv.book_eq hr hb this]

/-- The result of `Atoi` is in the range of `int`. -/
theorem Atoi_range {s : String} {n : Int} (h : Atoi s = some n) :
    minInt ≤ n ∧ n ≤ maxInt := by
  unfold Atoi at h
  cases hd : s.data with
  | nil => simp only [hd] at h; cases h
  | cons c cs =>
    simp only [hd] at h
    by_cases hds : (if c = '-' ∨ c = '+' then cs else c :: cs) = []
    · rw [if_pos hds] at h; cases h
    · rw [if_neg hds] at h
      cases hp : parseDigits (if c = '-' ∨ c = '+' then cs else c :: cs) 0 with
      | none => simp only [hp] at h; cases h
      | some m =>
        simp only [hp] at h
        by_cases hr : minInt ≤ (if c = '-' then -(m : Int) else (m : Int)) ∧
            (if c = '-' then -(m : Int) else (m : Int)) ≤ maxInt
        · rw [if_pos hr] at h; cases h; exact hr
        · rw [if_neg hr] at h; cases h

/-- On a non-negative `int` the conversion to `uint` keeps the value. -/
theorem toUint_of_nonneg {n : Int} (h0 : 0 ≤ n) (h1 : n ≤ maxInt) :
    ((toUint n : Nat) : Int) = n := by
  unfold toUint
  unfold maxInt at h1
  have hlt : n < 2 ^ 64 := by omega
  rw [Int.emod_eq_of_lt h0 hlt, Int.toNat_of_nonneg h0]

theorem bindBookInput_ok {name : String} {position : Int} (hname : name ≠ "")
    (hpos : position ≠ 0) (hlo : minInt ≤ position) (hhi : position ≤ maxInt) :
    bindBookInput (bookBody name position) = some { Name := name, Position := position } := by
  simp [bindBookInput, bookBody, decodeString, decodeInt, hname, hpos, hlo, hhi]

/-- A stored book that cannot be read is answered as an error by `First`. -/
theorem firstBook_unreadable (f : Faults) {s : Store} (hv : s.Valid) {b : Book}
    (hb : b ∈ s.books) (hread : ¬ 0 ≤ toInt64 b.CollectionID) :
    ∃ e, firstBook f s (b.ID : Int) = .error e := by
  unfold firstBook scanBook
  rw [find_book hv hb]
  cases hq : f.query
  · exact ⟨.failure, by simp only [Bool.false_eq_true, if_false, if_neg hread]⟩
  · exact ⟨.failure, by simp only [if_true]⟩

theorem firstBook_ok {f : Faults} {s : Store} {n : Int} {b : Book}
    (h : firstBook f s n = .ok b) :
    b ∈ s.books ∧ (b.ID : Int) = n ∧ 0 ≤ toInt64 b.CollectionID := by
  unfold firstBook at h
  cases hq : f.query
  · simp only [hq, Bool.false_eq_true, if_false] at h
    cases hf : s.books.find? (fun r => decide ((r.ID : Int) = n)) with
    | none => simp only [hf] at h; cases h
    | some r =>
      simp only [hf, scanBook] at h
      by_cases hread : 0 ≤ toInt64 r.CollectionID
      · rw [if_pos hread] at h
        cases h
        exact ⟨List.mem_of_find?_eq_some hf, by simpa using List.find?_some hf, hread⟩
      · rw [if_neg hread] at h
        cases h
  · simp only [hq, if_true] at h
    cases h

/-- `Save` of a value that carries the key of a stored row. -/
theorem saveBook_of_mem (f : Faults) {s : Store} {b : Book} (hb : b ∈ s.books)
    (t : Book) (ht : t.ID = b.ID) :
    saveBook f s t =
      if f.exec then .error .failure
      else if t.ID = 0 then
        .ok ({ t with ID := nextID (s.books.map (·.ID)) },
             { s with books := s.books ++ [{ t with ID := nextID (s.books.map (·.ID)) }] })
      else .ok (t, { s with books := s.books.map fun r => if r.ID = t.ID then t else r }) := by
  have hany : s.books.any (fun r => decide (r.ID = t.ID)) = true :=
    List.any_eq_true.mpr ⟨b, hb, by simp [ht]⟩
  unfold saveBook createBook
  by_cases h0 : t.ID = 0 <;> cases hx : f.exec <;> simp [h0, hany]

/-- The outcomes of `toggleBook`: either it answers with an error and returns
the store it was given, or it found a stored book with the requested key and
saved it with `done` negated. -/
theorem toggleBook_cases (f : Faults) (s : Store) (c : Context) :
    ((toggleBook f s c).2 = s ∧ (toggleBook f s c).1.status ≠ StatusOK) ∨
    ∃ b ∈ s.books, Atoi c.bookId = some (b.ID : Int) ∧
      ((b.ID ≠ 0 ∧ toggleBook f s c =
          (⟨StatusOK, .book { b with Done := !b.Done }⟩,
           { s with books := s.books.map fun r =>
              if r.ID = b.ID then { b with Done := !b.Done } else r })) ∨
       (b.ID = 0 ∧ ∃ t : Book, toggleBook f s c =
          (⟨StatusOK, .book t⟩, { s with books := s.books ++ [t] }))) := by
  cases hid : Atoi c.bookId with
  | none =>
    left
    simp [toggleBook, hid, StatusBadRequest, StatusOK]
  | some n =>
    cases hfirst : firstBook f s n with
    | error e =>
      left
      simp [toggleBook, hid, hfirst, StatusNotFound, StatusOK]
    | ok b =>
      obtain ⟨hb, hbn, _⟩ := firstBook_ok hfirst
      have hsave := saveBook_of_mem f hb { b with Done := !b.Done } rfl
      cases hx : f.exec
      · refine Or.inr ⟨b, hb, by rw [hbn], ?_⟩
        by_cases h0 : b.ID = 0
        · refine Or.inr ⟨h0, { b with Done := !b.Done, ID := nextID (s.books.map (·.ID)) }, ?_⟩
          simp only [hx, h0, Bool.false_eq_true, if_false, if_true] at hsave
          simp only [toggleBook, hid, hfirst, h0, hsave]
        · refine Or.inl ⟨h0, ?_⟩
          simp only [hx, h0, Bool.false_eq_true, if_false] at hsave
          simp only [toggleBook, hid, hfirst, hsave]
      · left
        simp only [hx, if_true] at hsave
        simp [toggleBook, hid, hfirst, hsave, StatusInternalServerError, StatusOK]

theorem createCollection_run (s : Store) (c : Context) (name : String)
    (position : Option JValue) (hbody : c.body = .object (some (.str name)) position)
    (hname : name ≠ "") :
    createCollection Faults.none s c =
      (⟨StatusOK, .collection
          { ID := nextID (s.collections.map (·.ID)), Name := name, Books := [] }⟩,
       { s with collections := s.collections ++
          [{ ID := nextID (s.collections.map (·.ID)), Name := name }] }) := by
  unfold Stack.createCollection
  rw [hbody]
  simp [bindCollectionInput, decodeString, hname, DB.createCollection, Faults.none]

/-- The effect of `createCollection` on the store: nothing, or one row added at
the end of `collections`. -/
theorem createCollection_store (f : Faults) (s : Store) (c : Context) :
    (createCollection f s c).2 = s ∨
    ∃ row : CollectionRow, row.ID = nextID (s.collections.map (·.ID)) ∧
      (createCollection f s c).2 = { s with collections := s.collections ++ [row] } := by
  cases hbind : bindCollectionInput c.body with
  | none =>
    left
    simp [Stack.createCollection, hbind]
  | some input =>
    cases hx : f.exec
    · exact Or.inr ⟨⟨nextID (s.collections.map (·.ID)), input.Name⟩, rfl,
        by simp [Stack.createCollection, hbind, DB.createCollection, hx]⟩
    · left
      simp [Stack.createCollection, hbind, DB.createCollection, hx]

/-- The effect of `addBookToCollection` on the store: nothing, or one row added
at the end of `books`, carrying the path id converted to `uint`. -/
theorem addBookToCollection_store (f : Faults) (s : Store) (c : Context) :
    (addBookToCollection f s c).2 = s ∨
    ∃ (b : Book) (n : Int), Atoi c.collectionId = some n ∧ b.CollectionID = toUint n ∧
      b.ID = nextID (s.books.map (·.ID)) ∧
      (addBookToCollection f s c).2 = { s with books := s.books ++ [b] } := by
  cases hid : Atoi c.collectionId with
  | none =>
    left
    simp [addBookToCollection, hid]
  | some n =>
    cases hbind : bindBookInput c.body with
    | none =>
      left
      simp [addBookToCollection, hid, hbind]
    | some input =>
      cases hx : f.exec
      · exact Or.inr ⟨⟨nextID (s.books.map (·.ID)), input.Name, input.Position, false,
          toUint n⟩, n, rfl, rfl, rfl, by simp [addBookToCollection, hid, hbind, createBook, hx]⟩
      · left
        simp [addBookToCollection, hid, hbind, createBook, hx]

theorem getCollections_store (f : Faults) (s : Store) (c : Context) :
    (getCollections f s c).2 = s := by
  cases h : findCollections f s <;> simp [getCollections, h]

theorem getBooksInCollection_store (f : Faults) (s : Store) (c : Context) :
    (getBooksInCollection f s c).2 = s := by
  cases hid : Atoi c.collectionId with
  | none => simp [getBooksInCollection, hid]
  | some n => cases h : findBooks f s n <;> simp [getBooksInCollection, hid, h]

theorem map_ID_toggled (l : List Book) (b : Book) :
    (l.map fun r => if r.ID = b.ID then { b with Done := !b.Done } else r).map (·.ID) =
      l.map (·.ID) := by
  rw [List.map_map]
  apply List.map_congr_left
  intro r _
  by_cases h : r.ID = b.ID <;> simp [h]

/-- Toggling keeps the store valid. -/
theorem valid_toggled {s : Store} (hv : s.Valid) (b : Book) (hb : b ∈ s.books) :
    Store.Valid { s with books := s.books.map fun r =>
      if r.ID = b.ID then { b with Done := !b.Done } else r } := by
  obtain ⟨h1, h2, h3, h4⟩ := hv
  refine ⟨h1, h2, ?_, ?_⟩
  · have : (s.books.map fun r => if r.ID = b.ID then { b with Done := !b.Done } else r).map
        (·.ID) = s.books.map (·.ID) := by
      rw [List.map_map]
      apply List.map_congr_left
      intro r _
      by_cases h : r.ID = b.ID <;> simp [h]
    simpa [this] using h3
  · intro r hr
    simp only [List.mem_map] at hr
    obtain ⟨r0, hr0, rfl⟩ := hr
    by_cases h : r0.ID = b.ID
    · simpa [h] using h4 b hb
    · simpa [h] using h4 r0 hr0

/-- Below `2 ^ 63` the column holds the field value. -/
theorem toInt64_of_lt {u : Nat} (h : u < 2 ^ 63) : toInt64 u = (u : Int) := by
  unfold toInt64
  have h1 : u % 2 ^ 64 = u := Nat.mod_eq_of_lt (by omega)
  rw [h1, if_pos h]

/-- For a field value in the range of `uint` and a non-negative `int`, the
column equals the integer exactly when the field does. -/
theorem toInt64_eq_iff_of_nonneg {u : Nat} {n : Int} (hu : u < 2 ^ 64) (hn : 0 ≤ n)
    (hmax : n ≤ maxInt) : toInt64 u = n ↔ (u : Int) = n := by
  unfold toInt64
  unfold maxInt at hmax
  have h1 : u % 2 ^ 64 = u := Nat.mod_eq_of_lt hu
  rw [h1]
  split <;> constructor <;> intro h <;> omega

/-- The column of a book added under the path id `n` holds `n`. -/
theorem toInt64_toUint {n : Int} (hlo : minInt ≤ n) (hhi : n ≤ maxInt) :
    toInt64 (toUint n) = n := by
  unfold toInt64 toUint
  unfold minInt at hlo
  unfold maxInt at hhi
  split <;> omega

theorem pairwise_lt_append_nextID (ids : List Nat) (h : ids.Pairwise (· < ·)) :
    (ids ++ [nextID ids]).Pairwise (· < ·) := by
  rw [List.pairwise_append]
  refine ⟨h, List.pairwise_singleton _ _, ?_⟩
  intro a ha b hb
  rw [List.mem_singleton.mp hb]
  exact lt_nextID ha

/-- Validity is an invariant: every request leaves a valid store valid. -/
theorem serve_valid (f : Faults) (s : Store) (r : Route) (c : Context) (hv : s.Valid) :
    (serve f s r c).2.Valid := by
  cases r
  · simpa [serve, getCollections_store] using hv
  · rcases createCollection_store f s c with h | ⟨row, hrow, h⟩
    · simpa [serve, h] using hv
    · obtain ⟨h1, h2, h3, h4⟩ := hv
      simp only [serve, h]
      refine ⟨?_, ?_, h3, h4⟩
      · simp only [List.map_append, List.map_cons, List.map_nil, hrow]
        exact pairwise_lt_append_nextID _ h1
      · intro x hx
        rcases List.mem_append.mp hx with hx | hx
        · exact h2 x hx
        · rw [List.mem_singleton.mp hx, hrow]
          exact nextID_pos _
  · simpa [serve, getBooksInCollection_store] using hv
  · rcases addBookToCollection_store f s c with h | ⟨b, n, hn, hcid, hbid, h⟩
    · simpa [serve, h] using hv
    · obtain ⟨h1, h2, h3, h4⟩ := hv
      simp only [serve, h]
      refine ⟨h1, h2, ?_, ?_⟩
      · simp only [List.map_append, List.map_cons, List.map_nil, hbid]
        exact pairwise_lt_append_nextID _ h3
      · intro x hx
        rcases List.mem_append.mp hx with hx | hx
        · exact h4 x hx
        · rw [List.mem_singleton.mp hx, hbid]
          exact nextID_pos _
  · rcases toggleBook_cases f s c with ⟨h, _⟩ | ⟨b, hb, _, ⟨_, h⟩ | ⟨h0, _⟩⟩
    · simpa [serve, h] using hv
    · simp only [serve, h]
      exact valid_toggled hv b hb
    · exact absurd h0 (hv.book_pos hb)

/-- The store of a fresh database is valid. -/
theorem emptyStore_valid : emptyStore.Valid := by decide

/-- Every reachable store is valid. -/
theorem Reachable.valid {s : Store} (h : Reachable s) : s.Valid := by
  induction h with
  | init => exact emptyStore_valid
  | step f s r c _ ih => exact serve_valid f s r c ih

/-- The store with one orphan book is reachable. -/
theorem orphanStore_reachable : Reachable orphanStore :=
  Reachable.step Faults.none emptyStore .addBookToCollection ⟨"5", "", bookBody "Dune" 1⟩
    Reachable.init

/-- C2: when no stored book has the requested id, `toggleBook` answers 404
"book not found" and returns the store it was given, whatever the storage
layer does. -/
theorem toggleBook_not_found (f : Faults) (s : Store) (c : Context) (bookId : Int)
    (hid : Atoi c.bookId = some bookId) (hno : ∀ b ∈ s.books, (b.ID : Int) ≠ bookId) :
    toggleBook f s c = (⟨StatusNotFound, .error "book not found"⟩, s) := by
  have hfind : s.books.find? (fun r => decide ((r.ID : Int) = bookId)) = Option.none := by
    apply List.find?_eq_none.mpr
    intro b hb
    simpa using hno b hb
  cases hq : f.query <;> simp [toggleBook, hid, firstBook, hq, hfind]

theorem toggleBook_not_found_witness :
    toggleBook Faults.none sampleStore ⟨"1", "9", .invalid⟩ =
      (⟨StatusNotFound, .error "book not found"⟩, sampleStore) :=
  toggleBook_not_found Faults.none sampleStore ⟨"1", "9", .invalid⟩ 9 (by decide) (by decide)

/-- C3, the claim as stated fails, in two ways.  In the store reached from a
fresh database by adding one book under the path id 5, no collection has id
5, yet the listing for id 5 is not empty.  In the store reached by adding a
book under the path id `-1`, the listing for `-1` answers 500 although the
storage layer works: the row is matched by its negative `collection_id` and
cannot be read back. -/
theorem getBooksInCollection_orphan_listed :
    (orphanStore = ⟨[], [⟨1, "Dune", 1, false, 5⟩]⟩ ∧
     Atoi "5" = some 5 ∧
     (getBooksInCollection Faults.none orphanStore ⟨"5", "", .invalid⟩).1 =
       ⟨StatusOK, .books [⟨1, "Dune", 1, false, 5⟩]⟩ ∧
     ¬ ((∀ r ∈ orphanStore.collections, (r.ID : Int) ≠ 5) →
         (getBooksInCollection Faults.none orphanStore ⟨"5", "", .invalid⟩).1 =
           ⟨StatusOK, .books []⟩)) ∧
    (Atoi "-1" = some (-1) ∧
     getBooksInCollection Faults.none mixedStore ⟨"-1", "", .invalid⟩ =
       (⟨StatusInternalServerError, .error "failed to fetch books"⟩, mixedStore) ∧
     ¬ ∃ books, getBooksInCollection Faults.none mixedStore ⟨"-1", "", .invalid⟩ =
       (⟨StatusOK, .books books⟩, mixedStore)) := by
  refine ⟨⟨by decide, by decide, by decide, by decide⟩, by decide, by decide, ?_⟩
  rintro ⟨books, h⟩
  have e : (getBooksInCollection Faults.none mixedStore ⟨"-1", "", .invalid⟩).1.status =
      StatusInternalServerError := by decide
  rw [h] at e
  simp [StatusOK, StatusInternalServerError] at e

/-- C3, amended: with a working storage layer, for a collection id that parses
as an integer and is non-negative, or under which no book is stored,
`getBooksInCollection` answers 200 with a list that is a permutation of the
stored books whose column `collection_id` equals the id, in non-decreasing
order of `position`, and leaves the store as it is; the list is empty when no
stored book has that `collection_id`.  Nothing is assumed about the collection
existing, nor about the books stored under other ids. -/
theorem getBooksInCollection_sorted (s : Store) (c : Context) (collectionId : Int)
    (hid : Atoi c.collectionId = some collectionId)
    (hok : 0 ≤ collectionId ∨ ∀ b ∈ s.books, toInt64 b.CollectionID ≠ collectionId) :
    ∃ books, getBooksInCollection Faults.none s c = (⟨StatusOK, .books books⟩, s) ∧
      books.Perm (s.books.filter fun b => toInt64 b.CollectionID = collectionId) ∧
      books.Sorted (fun a b => a.Position ≤ b.Position) ∧
      ((∀ b ∈ s.books, toInt64 b.CollectionID ≠ collectionId) → books = []) := by
  -- the rows the query selects are readable
  have hread : ∀ b ∈ s.books, toInt64 b.CollectionID = collectionId →
      0 ≤ toInt64 b.CollectionID := by
    intro b hb hcol
    rcases hok with h0 | hnone
    · rw [hcol]
      exact h0
    · exact absurd hcol (hnone b hb)
  have hall : ((s.books.filter fun b => decide (toInt64 b.CollectionID = collectionId)).insertionSort
      fun a b => a.Position ≤ b.Position).all (fun b => decide (0 ≤ toInt64 b.CollectionID)) =
      true := by
    rw [List.all_eq_true]
    intro b hb
    have hm := (List.perm_insertionSort _ _).subset hb
    rw [List.mem_filter] at hm
    exact decide_eq_true (hread b hm.1 (of_decide_eq_true hm.2))
  have hrun : getBooksInCollection Faults.none s c =
      (⟨StatusOK, .books ((s.books.filter fun b =>
        decide (toInt64 b.CollectionID = collectionId)).insertionSort
          fun a b => a.Position ≤ b.Position)⟩, s) := by
    unfold getBooksInCollection findBooks
    rw [hid]
    simp only [Faults.none, Bool.false_eq_true, if_false, hall, if_true]
  refine ⟨_, hrun, List.perm_insertionSort _ _, List.sorted_insertionSort _ _, ?_⟩
  intro hno
  have : (s.books.filter fun b => decide (toInt64 b.CollectionID = collectionId)) = [] := by
    apply List.filter_eq_nil_iff.mpr
    intro b hb
    simpa using hno b hb
  rw [this]
  rfl

theorem getBooksInCollection_sorted_witness :
    (∃ books, getBooksInCollection Faults.none mixedStore ⟨"1", "", .invalid⟩ =
        (⟨StatusOK, .books books⟩, mixedStore) ∧
      books.Perm (mixedStore.books.filter fun b => toInt64 b.CollectionID = 1) ∧
      books.Sorted (fun a b => a.Position ≤ b.Position) ∧
      ((∀ b ∈ mixedStore.books, toInt64 b.CollectionID ≠ 1) → books = [])) ∧
    (∃ books, getBooksInCollection Faults.none mixedStore ⟨"-4", "", .invalid⟩ =
        (⟨StatusOK, .books books⟩, mixedStore) ∧
      books.Perm (mixedStore.books.filter fun b => toInt64 b.CollectionID = -4) ∧
      books.Sorted (fun a b => a.Position ≤ b.Position) ∧
      ((∀ b ∈ mixedStore.books, toInt64 b.CollectionID ≠ -4) → books = [])) :=
  ⟨getBooksInCollection_sorted mixedStore ⟨"1", "", .invalid⟩ 1 (by decide)
    (Or.inl (by decide)),
   getBooksInCollection_sorted mixedStore ⟨"-4", "", .invalid⟩ (-4) (by decide)
    (Or.inr (by decide))⟩

/-- C4: with a working storage layer, `createCollection` with a non-empty
name answers 200 with a collection that has the submitted name, no books and
an id that no stored collection has; the store afterwards is the old one with
that collection added at the end. -/
theorem createCollection_fresh (s : Store) (c : Context) (name : String)
    (position : Option JValue) (hbody : c.body = .object (some (.str name)) position)
    (hname : name ≠ "") :
    ∃ id, createCollection Faults.none s c =
        (⟨StatusOK, .collection { ID := id, Name := name, Books := [] }⟩,
         { s with collections := s.collections ++ [{ ID := id, Name := name }] }) ∧
      (∀ r ∈ s.collections, r.ID ≠ id) ∧
      ({ ID := id, Name := name } : CollectionRow) ∈
        (createCollection Faults.none s c).2.collections := by
  have hrun : createCollection Faults.none s c =
      (⟨StatusOK, .collection
          { ID := nextID (s.collections.map (·.ID)), Name := name, Books := [] }⟩,
       { s with collections := s.collections ++
          [{ ID := nextID (s.collections.map (·.ID)), Name := name }] }) := by
    unfold Stack.createCollection
    rw [hbody]
    simp [bindCollectionInput, decodeString, hname, DB.createCollection, Faults.none]
  refine ⟨nextID (s.collections.map (·.ID)), hrun, ?_, ?_⟩
  · intro r hr h
    exact nextID_not_mem (s.collections.map (·.ID)) (h ▸ List.mem_map_of_mem _ hr)
  · rw [hrun]
    simp

theorem createCollection_fresh_witness :
    ∃ id, createCollection Faults.none sampleStore ⟨"", "", .object (some (.str "Poetry")) Option.none⟩ =
        (⟨StatusOK, .collection { ID := id, Name := "Poetry", Books := [] }⟩,
         { sampleStore with
           collections := sampleStore.collections ++ [{ ID := id, Name := "Poetry" }] }) ∧
      (∀ r ∈ sampleStore.collections, r.ID ≠ id) ∧
      ({ ID := id, Name := "Poetry" } : CollectionRow) ∈
        (createCollection Faults.none sampleStore
          ⟨"", "", .object (some (.str "Poetry")) Option.none⟩).2.collections :=
  createCollection_fresh sampleStore ⟨"", "", .object (some (.str "Poetry")) Option.none⟩
    "Poetry" Option.none rfl (by decide)

/-- C5, the claim as stated fails: the path id `-1` parses as an integer, and
the book that `addBookToCollection` answers with has `collection_id`
18446744073709551615, the value of `uint(-1)`, not the path id. -/
theorem addBookToCollection_negative_id :
    Atoi "-1" = some (-1) ∧
    (addBookToCollection Faults.none emptyStore ⟨"-1", "", bookBody "Dune" 1⟩).1 =
      ⟨StatusOK, .book ⟨1, "Dune", 1, false, 18446744073709551615⟩⟩ ∧
    ¬ ∃ b s', addBookToCollection Faults.none emptyStore ⟨"-1", "", bookBody "Dune" 1⟩ =
        (⟨StatusOK, .book b⟩, s') ∧ (b.CollectionID : Int) = -1 := by
  refine ⟨by decide, by decide, ?_⟩
  rintro ⟨b, s', h, hb⟩
  have e : (addBookToCollection Faults.none emptyStore ⟨"-1", "", bookBody "Dune" 1⟩).1 =
      ⟨StatusOK, .book ⟨1, "Dune", 1, false, 18446744073709551615⟩⟩ := by decide
  rw [h] at e
  simp only [Response.mk.injEq, Payload.book.injEq, true_and] at e
  rw [e] at hb
  simp at hb

/-- C5, amended: with a working storage layer, for a path collection id that
parses as a non-negative integer (whether or not a collection has that id), a
non-empty name and a non-zero position in the range of `int`,
`addBookToCollection` answers 200 with a book whose `done` is false, whose
`collection_id` is the path id, whose name and position are the submitted
ones and whose id no stored book has; the store afterwards is the old one
with that book added at the end. -/
theorem addBookToCollection_creates (s : Store) (c : Context) (collectionId : Int)
    (name : String) (position : Int)
    (hid : Atoi c.collectionId = some collectionId) (hnn : 0 ≤ collectionId)
    (hbody : c.body = bookBody name position) (hname : name ≠ "") (hpos : position ≠ 0)
    (hlo : minInt ≤ position) (hhi : position ≤ maxInt) :
    ∃ b, addBookToCollection Faults.none s c =
        (⟨StatusOK, .book b⟩, { s with books := s.books ++ [b] }) ∧
      b.Done = false ∧ (b.CollectionID : Int) = collectionId ∧ b.Name = name ∧
      b.Position = position ∧ (∀ r ∈ s.books, r.ID ≠ b.ID) ∧
      b ∈ (addBookToCollection Faults.none s c).2.books := by
  have hrun : addBookToCollection Faults.none s c =
      (⟨StatusOK, .book ⟨nextID (s.books.map (·.ID)), name, position, false,
          toUint collectionId⟩⟩,
       { s with books := s.books ++
          [⟨nextID (s.books.map (·.ID)), name, position, false, toUint collectionId⟩] }) := by
    unfold addBookToCollection
    rw [hid, hbody]
    simp only [bindBookInput_ok hname hpos hlo hhi]
    rfl
  refine ⟨_, hrun, rfl, toUint_of_nonneg hnn (Atoi_range hid).2, rfl, rfl, ?_, ?_⟩
  · intro r hr h
    have hm : r.ID ∈ s.books.map (·.ID) := List.mem_map_of_mem _ hr
    rw [h] at hm
    exact nextID_not_mem _ hm
  · rw [hrun]
    simp

theorem addBookToCollection_creates_witness :
    ∃ b, addBookToCollection Faults.none sampleStore ⟨"7", "", bookBody "Ulysses" (-2)⟩ =
        (⟨StatusOK, .book b⟩, { sampleStore with books := sampleStore.books ++ [b] }) ∧
      b.Done = false ∧ (b.CollectionID : Int) = 7 ∧ b.Name = "Ulysses" ∧
      b.Position = -2 ∧ (∀ r ∈ sampleStore.books, r.ID ≠ b.ID) ∧
      b ∈ (addBookToCollection Faults.none sampleStore
        ⟨"7", "", bookBody "Ulysses" (-2)⟩).2.books :=
  addBookToCollection_creates sampleStore ⟨"7", "", bookBody "Ulysses" (-2)⟩ 7 "Ulysses" (-2)
    (by decide) (by decide) rfl (by decide) (by decide) (by decide) (by decide)

/-- C6: for a path collection id that parses, `addBookToCollection` with a
body whose position is absent, `null` or 0, or whose name is absent, `null`
or empty, answers 400 and returns the store it was given, whatever the
storage layer does; and every non-zero position in the range of `int`,
negative ones included, passes the binding together with a non-empty name. -/
theorem addBookToCollection_required (f : Faults) (s : Store) (c : Context)
    (collectionId : Int) (name position : Option JValue)
    (hid : Atoi c.collectionId = some collectionId)
    (hbody : c.body = .object name position)
    (hmiss : position = Option.none ∨ position = some .null ∨ position = some (.int 0) ∨
      name = Option.none ∨ name = some .null ∨ name = some (.str "")) :
    addBookToCollection f s c =
      (⟨StatusBadRequest, .error "name and position are required"⟩, s) ∧
    ∀ (n : String) (p : Int), n ≠ "" → p ≠ 0 → minInt ≤ p → p ≤ maxInt →
      bindBookInput (bookBody n p) = some { Name := n, Position := p } := by
  refine ⟨?_, fun n p hn hp hlo hhi => bindBookInput_ok hn hp hlo hhi⟩
  have hbind : bindBookInput (.object name position) = Option.none := by
    simp only [bindBookInput]
    rcases hmiss with h | h | h | h | h | h <;> subst h
    · cases decodeString name <;> simp [decodeInt]
    · cases decodeString name <;> simp [decodeInt]
    · cases decodeString name <;> simp [decodeInt, minInt, maxInt]
    · cases decodeInt position <;> simp [decodeString]
    · cases decodeInt position <;> simp [decodeString]
    · cases decodeInt position <;> simp [decodeString]
  unfold addBookToCollection
  rw [hid, hbody]
  simp only [hbind]

theorem addBookToCollection_required_witness :
    addBookToCollection Faults.none sampleStore ⟨"1", "", bookBody "Dune" 0⟩ =
      (⟨StatusBadRequest, .error "name and position are required"⟩, sampleStore) ∧
    bindBookInput (bookBody "Dune" (-3)) = some { Name := "Dune", Position := -3 } :=
  have h := addBookToCollection_required Faults.none sampleStore ⟨"1", "", bookBody "Dune" 0⟩ 1
    (some (.str "Dune")) (some (.int 0)) (by decide) rfl (by simp)
  ⟨h.1, h.2 "Dune" (-3) (by decide) (by decide) (by decide) (by decide)⟩

/-- C7: with a working storage layer, `getCollections` answers 200 with one
collection per row of `collections`, in table order, each carrying exactly the
stored books whose `collection_id` is its id, and leaves the store as it is;
and rows are added at the end of the table, so after creating a collection
named `n1` and then one named `n2` the listing is the old listing followed by
those two, in that order, each with the stored books that carry its id. -/
theorem getCollections_lists (s : Store) (c : Context) :
    (∃ cs, getCollections Faults.none s c = (⟨StatusOK, .collections cs⟩, s) ∧
      cs.map (fun x => (⟨x.ID, x.Name⟩ : CollectionRow)) = s.collections ∧
      ∀ x ∈ cs, x.Books = s.books.filter fun b => b.CollectionID = x.ID) ∧
    ∀ (c1 c2 : Context) (n1 n2 : String) (p1 p2 : Option JValue),
      c1.body = .object (some (.str n1)) p1 → n1 ≠ "" →
      c2.body = .object (some (.str n2)) p2 → n2 ≠ "" →
      ∃ cs k1 k2 s1 s2,
        getCollections Faults.none s c = (⟨StatusOK, .collections cs⟩, s) ∧
        createCollection Faults.none s c1 = (⟨StatusOK, .collection ⟨k1, n1, []⟩⟩, s1) ∧
        createCollection Faults.none s1 c2 = (⟨StatusOK, .collection ⟨k2, n2, []⟩⟩, s2) ∧
        getCollections Faults.none s2 c =
          (⟨StatusOK, .collections (cs ++
            [⟨k1, n1, s2.books.filter fun b => b.CollectionID = k1⟩,
             ⟨k2, n2, s2.books.filter fun b => b.CollectionID = k2⟩])⟩, s2) ∧
        s2.books = s.books := by
  have hlist : ∀ s : Store, getCollections Faults.none s c =
      (⟨StatusOK, .collections (s.collections.map fun r =>
        { ID := r.ID, Name := r.Name,
          Books := s.books.filter fun b => b.CollectionID = r.ID })⟩, s) := by
    intro s
    simp [getCollections, findCollections, Faults.none]
  refine ⟨⟨_, hlist s, ?_, ?_⟩, ?_⟩
  · rw [List.map_map]
    conv_rhs => rw [← List.map_id s.collections]
    apply List.map_congr_left
    intro r _
    rfl
  · intro x hx
    obtain ⟨r, _, rfl⟩ := List.mem_map.mp hx
    rfl
  · intro c1 c2 n1 n2 p1 p2 h1 hn1 h2 hn2
    refine ⟨_, _, _, _, _, hlist s, createCollection_run s c1 n1 p1 h1 hn1,
      createCollection_run _ c2 n2 p2 h2 hn2, ?_, rfl⟩
    rw [hlist]
    simp

theorem getCollections_lists_witness :
    ∃ cs k1 k2 s1 s2,
      getCollections Faults.none sampleStore ⟨"", "", .invalid⟩ =
        (⟨StatusOK, .collections cs⟩, sampleStore) ∧
      createCollection Faults.none sampleStore ⟨"", "", .object (some (.str "Poetry")) Option.none⟩ =
        (⟨StatusOK, .collection ⟨k1, "Poetry", []⟩⟩, s1) ∧
      createCollection Faults.none s1 ⟨"", "", .object (some (.str "Drama")) Option.none⟩ =
        (⟨StatusOK, .collection ⟨k2, "Drama", []⟩⟩, s2) ∧
      getCollections Faults.none s2 ⟨"", "", .invalid⟩ =
        (⟨StatusOK, .collections (cs ++
          [⟨k1, "Poetry", s2.books.filter fun b => b.CollectionID = k1⟩,
           ⟨k2, "Drama", s2.books.filter fun b => b.CollectionID = k2⟩])⟩, s2) ∧
      s2.books = sampleStore.books :=
  (getCollections_lists sampleStore ⟨"", "", .invalid⟩).2
    ⟨"", "", .object (some (.str "Poetry")) Option.none⟩
    ⟨"", "", .object (some (.str "Drama")) Option.none⟩
    "Poetry" "Drama" Option.none Option.none rfl (by decide) rfl (by decide)

/-- C8: whatever the route, the request and the behaviour of the storage
layer, every collection id and every book id of the store before the request
is an id of the store after it. -/
theorem serve_keeps_ids (f : Faults) (s : Store) (r : Route) (c : Context) :
    (∀ id ∈ s.collections.map (·.ID), id ∈ (serve f s r c).2.collections.map (·.ID)) ∧
    (∀ id ∈ s.books.map (·.ID), id ∈ (serve f s r c).2.books.map (·.ID)) := by
  cases r
  · simp [serve, getCollections_store]
  · rcases createCollection_store f s c with h | ⟨row, _, h⟩
    · simp [serve, h]
    · simp only [serve, h, List.map_append, List.mem_append]
      exact ⟨fun id hid => Or.inl hid, fun id hid => hid⟩
  · simp [serve, getBooksInCollection_store]
  · rcases addBookToCollection_store f s c with h | ⟨b, n, _, _, _, h⟩
    · simp [serve, h]
    · simp only [serve, h, List.map_append, List.mem_append]
      exact ⟨fun id hid => hid, fun id hid => Or.inl hid⟩
  · rcases toggleBook_cases f s c with ⟨h, _⟩ | ⟨b, _, _, ⟨_, h⟩ | ⟨_, t, h⟩⟩
    · simp [serve, h]
    · simp only [serve, h, map_ID_toggled]
      exact ⟨fun id hid => hid, fun id hid => hid⟩
    · simp only [serve, h, List.map_append, List.mem_append]
      exact ⟨fun id hid => hid, fun id hid => Or.inl hid⟩

theorem serve_keeps_ids_witness :
    1 ∈ (serve Faults.none sampleStore .toggleBook ⟨"1", "2", .invalid⟩).2.collections.map (·.ID) ∧
    2 ∈ (serve Faults.none sampleStore .toggleBook ⟨"1", "2", .invalid⟩).2.books.map (·.ID) :=
  have h := serve_keeps_ids Faults.none sampleStore .toggleBook ⟨"1", "2", .invalid⟩
  ⟨h.1 1 (by decide), h.2 2 (by decide)⟩

/-- C9: in a store that satisfies the primary-key constraint, which every
reachable store does (`Reachable.valid`), a `toggleBook` that answers 200
found a stored book with the requested id, answers with that book and `done`
negated, leaves `collections` as it is and changes `books` only in the `done`
field of that row; in every store a `toggleBook` that answers anything else
returns the store it was given, and after a request to any other route the
old rows of both tables are, unchanged and in place, the first rows of the
new tables. -/
theorem toggleBook_frame (f : Faults) (s : Store) (c : Context) :
    (s.Valid → (toggleBook f s c).1.status = StatusOK →
      ∃ b ∈ s.books, Atoi c.bookId = some (b.ID : Int) ∧
        (toggleBook f s c).1.body = .book { b with Done := !b.Done } ∧
        (toggleBook f s c).2.collections = s.collections ∧
        (toggleBook f s c).2.books =
          s.books.map fun r => if r.ID = b.ID then { r with Done := !r.Done } else r) ∧
    ((toggleBook f s c).1.status ≠ StatusOK → (toggleBook f s c).2 = s) ∧
    (∀ r, r ≠ Route.toggleBook →
      s.collections <+: (serve f s r c).2.collections ∧
      s.books <+: (serve f s r c).2.books) := by
  refine ⟨?_, ?_, ?_⟩
  · intro hv hok
    rcases toggleBook_cases f s c with ⟨_, h⟩ | ⟨b, hb, hid, ⟨_, h⟩ | ⟨h0, _⟩⟩
    · exact absurd hok h
    · refine ⟨b, hb, hid, by rw [h], by rw [h], ?_⟩
      rw [h]
      apply List.map_congr_left
      intro r hr
      by_cases hrb : r.ID = b.ID
      · rw [if_pos hrb, if_pos hrb, hv.book_eq hr hb hrb]
      · rw [if_neg hrb, if_neg hrb]
    · exact absurd h0 (hv.book_pos hb)
  · intro hne
    rcases toggleBook_cases f s c with ⟨h, _⟩ | ⟨b, _, _, ⟨_, h⟩ | ⟨_, t, h⟩⟩
    · exact h
    · exact absurd (by rw [h]) hne
    · exact absurd (by rw [h]) hne
  · intro r hr
    cases r
    · simp [serve, getCollections_store]
    · rcases createCollection_store f s c with h | ⟨row, _, h⟩ <;> simp [serve, h]
    · simp [serve, getBooksInCollection_store]
    · rcases addBookToCollection_store f s c with h | ⟨b, n, _, _, _, h⟩ <;> simp [serve, h]
    · exact absurd rfl hr

theorem toggleBook_frame_witness :
    (∃ b ∈ mixedStore.books, Atoi "2" = some (b.ID : Int) ∧
      (toggleBook Faults.none mixedStore ⟨"1", "2", .invalid⟩).1.body =
        .book { b with Done := !b.Done } ∧
      (toggleBook Faults.none mixedStore ⟨"1", "2", .invalid⟩).2.collections =
        mixedStore.collections ∧
      (toggleBook Faults.none mixedStore ⟨"1", "2", .invalid⟩).2.books =
        mixedStore.books.map fun r =>
          if r.ID = b.ID then { r with Done := !r.Done } else r) ∧
    (toggleBook Faults.none mixedStore ⟨"1", "3", .invalid⟩).2 = mixedStore ∧
    mixedStore.books <+:
      (serve Faults.none mixedStore .addBookToCollection ⟨"1", "", bookBody "Hamlet" 4⟩).2.books :=
  ⟨(toggleBook_frame Faults.none mixedStore ⟨"1", "2", .invalid⟩).1 (by decide) (by decide),
   (toggleBook_frame Faults.none mixedStore ⟨"1", "3", .invalid⟩).2.1 (by decide),
   ((toggleBook_frame Faults.none mixedStore ⟨"1", "", bookBody "Hamlet" 4⟩).2.2
      .addBookToCollection (by decide)).2⟩

/-- C10: the answer of `toggleBook` and the store it returns are the same for
any two values of the `collectionId` path parameter, numeric or not, for every
store, book id, body and behaviour of the storage layer. -/
theorem toggleBook_ignores_collectionId (f : Faults) (s : Store)
    (collectionId1 collectionId2 bookId : String) (body : ReqBody) :
    toggleBook f s ⟨collectionId1, bookId, body⟩ =
      toggleBook f s ⟨collectionId2, bookId, body⟩ ∧
    serve f s .toggleBook ⟨collectionId1, bookId, body⟩ =
      serve f s .toggleBook ⟨collectionId2, bookId, body⟩ :=
  ⟨rfl, rfl⟩

end Stack
